import Mathlib

/-!
Shallow embedding of the Nebula terminal emulator core
(src/terminal/terminal.rs and src/terminal/texture.rs).

Cells are single characters (the Rust `TerminalCell` wraps one `char`,
default `' '`); the grid's `cells` field is the `rows × cols` matrix,
outer list indexed by row.  Machine integers (`usize`) are modelled as
`Nat`; the places where Rust `usize` arithmetic can underflow or index
out of bounds are modelled explicitly with `Option` (see `csiP`).
-/

structure TerminalGrid where
  rows : Nat
  cols : Nat
  cells : List (List Char)
  cursor_x : Nat
  cursor_y : Nat
  scrollback : List String
  scroll_offset : Nat
  dirty : Bool
deriving DecidableEq

namespace TerminalGrid

/-- A row of `cols` blank cells (`TerminalCell::default()` is `' '`). -/
def blankRow (cols : Nat) : List Char := List.replicate cols ' '

/-- `TerminalGrid::new`: all-blank `rows × cols` matrix, cursor at the
origin, empty scrollback, `dirty` initially `true`. -/
def new (rows cols : Nat) : TerminalGrid :=
  ⟨rows, cols, List.replicate rows (blankRow cols), 0, 0, [], 0, true⟩

/-- Write one character at matrix position `(r, c)`
(Rust `self.cells[r][c] = ...`; in the source both indices are in
bounds whenever it is executed). -/
def setCell (cells : List (List Char)) (r c : Nat) (ch : Char) :
    List (List Char) :=
  cells.set r ((cells.getD r []).set c ch)

/-- Read the character at `(y, x)` (blank off the grid). -/
def getCell (g : TerminalGrid) (y x : Nat) : Char :=
  (g.cells.getD y []).getD x ' '

/-- `TerminalGrid::clear_screen`: blank every cell of the `rows × cols`
matrix, reset the cursor to the origin, set `dirty`. -/
def clear_screen (g : TerminalGrid) : TerminalGrid :=
  { g with cells := List.replicate g.rows (blankRow g.cols),
           cursor_x := 0, cursor_y := 0, dirty := true }

/-- `TerminalGrid::clear_line(from)`: blank the cursor row's cells from
column `start` up to `cols`, set `dirty`; guarded by
`cursor_y < rows`. -/
def clear_line (g : TerminalGrid) (start : Nat) : TerminalGrid :=
  if g.cursor_y < g.rows then
    { g with
      cells := g.cells.set g.cursor_y
        ((g.cells.getD g.cursor_y []).take start ++
          List.replicate (g.cols - start) ' '),
      dirty := true }
  else g

/-- `TerminalGrid::carriage_return`. -/
def carriage_return (g : TerminalGrid) : TerminalGrid :=
  { g with cursor_x := 0, dirty := true }

/-- `TerminalGrid::backspace`: destructive backspace, a no-op at column
zero. -/
def backspace (g : TerminalGrid) : TerminalGrid :=
  if 0 < g.cursor_x then
    { g with cursor_x := g.cursor_x - 1,
             cells := setCell g.cells g.cursor_y (g.cursor_x - 1) ' ',
             dirty := true }
  else g

/-- `TerminalGrid::scroll_up`: append the textual top row to scrollback,
shift every row up by one, blank the new bottom row.  Note the Rust code
does not touch `scroll_offset` here. -/
def scroll_up (g : TerminalGrid) : TerminalGrid :=
  { g with
    scrollback := g.scrollback ++ [String.mk (g.cells.getD 0 [])],
    cells := g.cells.drop 1 ++ [blankRow g.cols],
    dirty := true }

/-- Write `line` (truncated to `cols`) over the leading cells of `base`:
the Rust loop `for (col, c) in line.chars().enumerate().take(cols)`. -/
def overlayTop (base : List Char) (line : List Char) (cols : Nat) :
    List Char :=
  line.take cols ++ base.drop (min line.length cols)

/-- `TerminalGrid::scroll_down`: when `scroll_offset > 0` decrement it,
and when scrollback is non-empty pop its most recent line, shift all
rows down and write the popped line into row 0. -/
def scroll_down (g : TerminalGrid) : TerminalGrid :=
  if 0 < g.scroll_offset then
    match g.scrollback.getLast? with
    | some line =>
        { g with
          scroll_offset := g.scroll_offset - 1,
          scrollback := g.scrollback.dropLast,
          cells := overlayTop (g.cells.getD 0 []) line.data g.cols ::
                     g.cells.take (g.rows - 1),
          dirty := true }
    | none => { g with scroll_offset := g.scroll_offset - 1 }
  else g

/-- `TerminalGrid::move_cursor`: clamp to `cols - 1` and `rows - 1`. -/
def move_cursor (g : TerminalGrid) (x y : Nat) : TerminalGrid :=
  { g with cursor_x := min x (g.cols - 1),
           cursor_y := min y (g.rows - 1),
           dirty := true }

/-- `TerminalGrid::move_cursor_relative`: signed offsets floored at 0,
then clamped through `move_cursor`. -/
def move_cursor_relative (g : TerminalGrid) (dx dy : Int) : TerminalGrid :=
  move_cursor g ((g.cursor_x + dx).toNat) ((g.cursor_y + dy).toNat)

/-- `TerminalGrid::newline`: scroll up when on the bottom row, otherwise
advance `cursor_y`; the Rust code then also sets `cursor_x = 0`. -/
def newline (g : TerminalGrid) : TerminalGrid :=
  let g1 := if g.cursor_y = g.rows - 1 then scroll_up g
            else { g with cursor_y := g.cursor_y + 1 }
  { g1 with cursor_x := 0, dirty := true }

/-- `TerminalGrid::print_char`: write `c` at the cursor and advance the
cursor when both coordinates are in bounds; afterwards wrap
(carriage return + newline) when the cursor reached the column
boundary. -/
def print_char (g : TerminalGrid) (c : Char) : TerminalGrid :=
  let g1 := if g.cursor_y < g.rows ∧ g.cursor_x < g.cols then
      { g with cells := setCell g.cells g.cursor_y g.cursor_x c,
               cursor_x := g.cursor_x + 1, dirty := true }
    else g
  if g1.cols ≤ g1.cursor_x then newline (carriage_return g1) else g1

/-- `TerminalGrid::print_str`: print every char of `s` in order
(note: no special handling of any character, a `'\n'` in `s` is written
into a cell like any other character). -/
def print_str (g : TerminalGrid) (s : String) : TerminalGrid :=
  s.data.foldl print_char g

/-- Scrollback part of `TerminalGrid::to_string`: the lines from
`scroll_offset` on, each followed by `'\n'`. -/
def scrollbackText (g : TerminalGrid) : String :=
  (g.scrollback.drop g.scroll_offset).foldl
    (fun acc line => acc ++ line ++ "\n") ""

/-- `TerminalGrid::to_string`: scrollback lines from `scroll_offset`
onward, then the screen rows joined by `'\n'`. -/
def to_string (g : TerminalGrid) : String :=
  scrollbackText g ++ String.intercalate "\n" (g.cells.map String.mk)

/-- Cursor-bounds invariant claimed by the spec. -/
abbrev Inv (g : TerminalGrid) : Prop :=
  g.cursor_x < g.cols ∧ g.cursor_y < g.rows

/-- Shape well-formedness: the `cells` field really is a
`rows × cols` matrix (always true of grids the Rust code builds). -/
abbrev WF (g : TerminalGrid) : Prop :=
  g.cells.length = g.rows ∧ ∀ r ∈ g.cells, r.length = g.cols

end TerminalGrid

/-! ## The CSI dispatcher (`TerminalPerformer::csi_dispatch`) -/

/-- `get_param` closure of `csi_dispatch`: `index`-th parameter's first
sub-parameter, defaulting to `1` when absent. -/
def get_param (params : List (List Nat)) (i : Nat) : Nat :=
  match (params.getD i []).head? with
  | some v => v
  | none => 1

/-- CSI `K` (erase in line).  Modes 0 and 1 go through
`TerminalGrid::clear_line` (which sets `dirty`); mode 2 blanks the
cursor row by writing the cells directly, without touching `dirty`,
exactly as the Rust arm does. -/
def csiK (g : TerminalGrid) (params : List (List Nat)) : TerminalGrid :=
  match get_param params 0 with
  | 0 => g.clear_line g.cursor_x
  | 1 => g.clear_line 0
  | 2 => { g with cells := g.cells.set g.cursor_y (TerminalGrid.blankRow g.cols) }
  | _ => g

/-- Row contents produced by the two loops of the CSI `P` arm, for
`count ≤ cols` (on a row of length `cols`): positions at or beyond
`cols - count` are blanked, positions from the cursor on are shifted
left by `count`, earlier positions are untouched. -/
def deleteChars (row : List Char) (start count cols : Nat) : List Char :=
  (List.range cols).map fun x =>
    if cols - count ≤ x then ' '
    else if start ≤ x then row.getD (x + count) ' '
    else row.getD x ' '

/-- CSI `P` (delete character).  The Rust arm computes
`self.grid.cols - count` with `usize` arithmetic in both loop bounds;
when `count > cols` this underflows (a panic in debug builds, and a
wrapped bound leading to an out-of-bounds index in release builds), so
that case is modelled as `none`.  The arm never sets `dirty`. -/
def csiP (g : TerminalGrid) (params : List (List Nat)) :
    Option TerminalGrid :=
  let count := get_param params 0
  if g.cols < count then none
  else
    let newRow :=
      deleteChars (g.cells.getD g.cursor_y []) g.cursor_x count g.cols
    some { g with cells := g.cells.set g.cursor_y newRow }

/-! ## The glyph atlas (`GlyphAtlas` in src/terminal/texture.rs) -/

/-- `GlyphKey`: identity tuple; `fontdb::ID` is opaque, modelled as
`Nat`.  No sub-pixel component exists in the key. -/
structure GlyphKey where
  font_id : Nat
  glyph_id : Nat
  font_size : Nat
deriving DecidableEq

/-- The two `anyhow` error messages `add_glyph` can produce. -/
inductive GlyphError where
  | emptyGlyph : GlyphError
  | atlasFull : GlyphError
deriving DecidableEq

/-- `GlyphAtlas` packing state.  The `HashMap` cache is modelled as an
association list (keys are inserted at most once); `writes` records
every `queue.write_texture` call's destination rectangle, so "no second
GPU-visible texture write" is observable. -/
structure GlyphAtlas where
  cache : List (GlyphKey × (Nat × Nat × Nat × Nat))
  current_x : Nat
  current_y : Nat
  row_height : Nat
  atlas_size : Nat
  writes : List (Nat × Nat × Nat × Nat)
deriving DecidableEq

namespace GlyphAtlas

/-- `GlyphAtlas::new`: empty cache, cursor at the origin. -/
def new (atlas_size : Nat) : GlyphAtlas := ⟨[], 0, 0, 0, atlas_size, []⟩

/-- `HashMap::get` on the modelled cache. -/
def findRect (cache : List (GlyphKey × (Nat × Nat × Nat × Nat)))
    (key : GlyphKey) : Option (Nat × Nat × Nat × Nat) :=
  match cache with
  | [] => none
  | (k, r) :: rest => if k = key then some r else findRect rest key

/-- `GlyphAtlas::add_glyph` for an image of size `width × height`:
cache hit returns the stored rectangle unchanged; zero-sized images are
rejected; otherwise shelf-pack (wrap to a new row when the width would
overflow, fail with `atlasFull` when the row would overflow the atlas
height), upload, and record.  The returned atlas is the mutated
`self` (note the wrap mutation persists even when the call then fails
with `atlasFull`, as in the Rust code). -/
def add_glyph (a : GlyphAtlas) (key : GlyphKey) (width height : Nat) :
    Except GlyphError (Nat × Nat × Nat × Nat) × GlyphAtlas :=
  match findRect a.cache key with
  | some rect => (Except.ok rect, a)
  | none =>
    if width = 0 ∨ height = 0 then (Except.error GlyphError.emptyGlyph, a)
    else
      let a1 := if a.atlas_size < a.current_x + width then
          { a with current_x := 0,
                   current_y := a.current_y + a.row_height,
                   row_height := 0 }
        else a
      if a1.atlas_size < a1.current_y + height then
        (Except.error GlyphError.atlasFull, a1)
      else
        let a2 := { a1 with row_height := max a1.row_height height }
        (Except.ok (a2.current_x, a2.current_y, width, height),
         { a2 with
           cache := (key, (a2.current_x, a2.current_y, width, height)) ::
                      a2.cache,
           current_x := a2.current_x + width,
           writes := a2.writes ++
                      [(a2.current_x, a2.current_y, width, height)] })

/-- Feed a list of `(key, width, height)` glyphs through `add_glyph`,
keeping only the atlas state. -/
def addAll (a : GlyphAtlas) (gs : List (GlyphKey × Nat × Nat)) :
    GlyphAtlas :=
  gs.foldl (fun acc p => (add_glyph acc p.1 p.2.1 p.2.2).2) a

/-- Total width of a glyph list. -/
def sumW (gs : List (GlyphKey × Nat × Nat)) : Nat :=
  (gs.map (fun p => p.2.1)).sum

/-- Maximum height of a glyph list. -/
def maxH (gs : List (GlyphKey × Nat × Nat)) : Nat :=
  (gs.map (fun p => p.2.2)).foldr max 0

end GlyphAtlas

/-! ## The PTY respawn path (`Terminal::spawn_pty`, EOF branch) -/

/-- `FONT_SIZE` is the f32 `14.0`; cursor pixel positions are products
of small integers, exact in f32, so modelled over `Nat`. -/
def FONT_SIZE : Nat := 14

/-- `LINE_HEIGHT` is the f32 `20.0`. -/
def LINE_HEIGHT : Nat := 20

/-- The banner printed on startup and after every respawn. -/
def nebulaBanner : String := "Nebula Terminal\n$ "

/-- Grid-state part of the `Ok(0)` (EOF) branch of the read loop:
print the inline exit notice, then (after the new PTY and shell spawn
succeed) clear the screen, reset the cursor, clear scrollback and the
scroll offset, and print a fresh banner. -/
def respawn_after_eof (g : TerminalGrid) : TerminalGrid :=
  let g1 := (g.print_str "\n[Shell exited, restarting...]\n").clear_screen
  let g2 := { g1 with cursor_x := 0, cursor_y := 0, scrollback := [],
                      scroll_offset := 0, dirty := true }
  g2.print_str nebulaBanner

/-- What the EOF branch publishes as the cursor pixel position:
`(cursor_x * FONT_SIZE, cursor_y * LINE_HEIGHT)`. -/
def published_cursor (g : TerminalGrid) : Nat × Nat :=
  (g.cursor_x * FONT_SIZE, g.cursor_y * LINE_HEIGHT)

/-! ## Concrete states used as witnesses and counterexamples -/

/-- A well-formed 2×3 grid with the cursor on the last column. -/
def gLastCol : TerminalGrid := ⟨2, 3, [['a','b','c'], ['d','e','f']], 2, 0, [], 0, false⟩

/-- A well-formed 2×2 grid, cursor at the origin, no scrollback. -/
def gPlain : TerminalGrid := ⟨2, 2, [['a','b'], ['c','d']], 0, 0, [], 0, false⟩

/-- Like `gPlain` but with one scrollback line shown
(`scroll_offset = 1`). -/
def gOffset : TerminalGrid := ⟨2, 2, [['a','b'], ['c','d']], 0, 0, ["xy"], 1, false⟩

/-- A grid with visible scrollback for the `clear_screen` claim. -/
def gScrollback : TerminalGrid := ⟨1, 2, [['a','b']], 1, 0, ["hi"], 0, false⟩

/-- A 2×2 grid whose cursor is at column 1 (for the `newline` claim). -/
def gMidLine : TerminalGrid := ⟨2, 2, [['a','b'], ['c','d']], 1, 0, [], 0, false⟩

/-- A clean (`dirty = false`) grid for the dirty-flag claim. -/
def gClean : TerminalGrid := ⟨2, 2, [['a','b'], ['c','d']], 0, 0, [], 0, false⟩

/-- The grid published after an EOF-triggered respawn, starting from the
freshly spawned 24×80 session that has printed its banner. -/
def gRespawn : TerminalGrid :=
  respawn_after_eof ((TerminalGrid.new 24 80).print_str nebulaBanner)

/-- Sample glyph keys. -/
def kA : GlyphKey := ⟨0, 1, 14⟩

/-- Sample glyph keys. -/
def kB : GlyphKey := ⟨0, 2, 14⟩

/-- Sample glyph keys. -/
def kC : GlyphKey := ⟨0, 3, 14⟩

/-! ## Helper lemmas -/

namespace TerminalGrid

@[simp] lemma clear_screen_cursor_x (g : TerminalGrid) : (g.clear_screen).cursor_x = 0 := rfl
@[simp] lemma clear_screen_cursor_y (g : TerminalGrid) : (g.clear_screen).cursor_y = 0 := rfl
@[simp] lemma clear_screen_cols (g : TerminalGrid) : (g.clear_screen).cols = g.cols := rfl
@[simp] lemma clear_screen_rows (g : TerminalGrid) : (g.clear_screen).rows = g.rows := rfl
@[simp] lemma clear_screen_scrollback (g : TerminalGrid) : (g.clear_screen).scrollback = g.scrollback := rfl
@[simp] lemma clear_screen_scroll_offset (g : TerminalGrid) : (g.clear_screen).scroll_offset = g.scroll_offset := rfl
@[simp] lemma clear_screen_cells (g : TerminalGrid) : (g.clear_screen).cells = List.replicate g.rows (blankRow g.cols) := rfl

@[simp] lemma carriage_return_cursor_x (g : TerminalGrid) : (g.carriage_return).cursor_x = 0 := rfl
@[simp] lemma carriage_return_cursor_y (g : TerminalGrid) : (g.carriage_return).cursor_y = g.cursor_y := rfl
@[simp] lemma carriage_return_cols (g : TerminalGrid) : (g.carriage_return).cols = g.cols := rfl
@[simp] lemma carriage_return_rows (g : TerminalGrid) : (g.carriage_return).rows = g.rows := rfl
@[simp] lemma carriage_return_cells (g : TerminalGrid) : (g.carriage_return).cells = g.cells := rfl
@[simp] lemma carriage_return_scrollback (g : TerminalGrid) : (g.carriage_return).scrollback = g.scrollback := rfl

@[simp] lemma scroll_up_cursor_x (g : TerminalGrid) : (g.scroll_up).cursor_x = g.cursor_x := rfl
@[simp] lemma scroll_up_cursor_y (g : TerminalGrid) : (g.scroll_up).cursor_y = g.cursor_y := rfl
@[simp] lemma scroll_up_cols (g : TerminalGrid) : (g.scroll_up).cols = g.cols := rfl
@[simp] lemma scroll_up_rows (g : TerminalGrid) : (g.scroll_up).rows = g.rows := rfl
@[simp] lemma scroll_up_scroll_offset (g : TerminalGrid) : (g.scroll_up).scroll_offset = g.scroll_offset := rfl
@[simp] lemma scroll_up_scrollback (g : TerminalGrid) :
    (g.scroll_up).scrollback = g.scrollback ++ [String.mk (g.cells.getD 0 [])] := rfl
@[simp] lemma scroll_up_cells (g : TerminalGrid) :
    (g.scroll_up).cells = g.cells.drop 1 ++ [blankRow g.cols] := rfl

@[simp] lemma scroll_down_cursor_x (g : TerminalGrid) : (g.scroll_down).cursor_x = g.cursor_x := by
  unfold scroll_down; split
  · cases g.scrollback.getLast? <;> rfl
  · rfl
@[simp] lemma scroll_down_cursor_y (g : TerminalGrid) : (g.scroll_down).cursor_y = g.cursor_y := by
  unfold scroll_down; split
  · cases g.scrollback.getLast? <;> rfl
  · rfl
@[simp] lemma scroll_down_cols (g : TerminalGrid) : (g.scroll_down).cols = g.cols := by
  unfold scroll_down; split
  · cases g.scrollback.getLast? <;> rfl
  · rfl
@[simp] lemma scroll_down_rows (g : TerminalGrid) : (g.scroll_down).rows = g.rows := by
  unfold scroll_down; split
  · cases g.scrollback.getLast? <;> rfl
  · rfl

@[simp] lemma move_cursor_cursor_x (g : TerminalGrid) (x y : Nat) :
    (g.move_cursor x y).cursor_x = min x (g.cols - 1) := rfl
@[simp] lemma move_cursor_cursor_y (g : TerminalGrid) (x y : Nat) :
    (g.move_cursor x y).cursor_y = min y (g.rows - 1) := rfl
@[simp] lemma move_cursor_cols (g : TerminalGrid) (x y : Nat) :
    (g.move_cursor x y).cols = g.cols := rfl
@[simp] lemma move_cursor_rows (g : TerminalGrid) (x y : Nat) :
    (g.move_cursor x y).rows = g.rows := rfl

@[simp] lemma newline_cursor_x (g : TerminalGrid) : (g.newline).cursor_x = 0 := rfl
@[simp] lemma newline_cols (g : TerminalGrid) : (g.newline).cols = g.cols := by
  by_cases h : g.cursor_y = g.rows - 1 <;> simp [newline, h]
@[simp] lemma newline_rows (g : TerminalGrid) : (g.newline).rows = g.rows := by
  by_cases h : g.cursor_y = g.rows - 1 <;> simp [newline, h]

lemma newline_cursor_y_bottom (g : TerminalGrid) (h : g.cursor_y = g.rows - 1) :
    (g.newline).cursor_y = g.cursor_y := by
  simp [newline, h]
lemma newline_cursor_y_mid (g : TerminalGrid) (h : ¬ g.cursor_y = g.rows - 1) :
    (g.newline).cursor_y = g.cursor_y + 1 := by
  simp [newline, h]

lemma inv_newline (g : TerminalGrid) (hc : 0 < g.cols) (hy : g.cursor_y < g.rows) :
    Inv (g.newline) := by
  constructor
  · simpa using hc
  · by_cases h : g.cursor_y = g.rows - 1
    · rw [newline_cursor_y_bottom g h, newline_rows]; omega
    · rw [newline_cursor_y_mid g h, newline_rows]; omega

lemma inv_print_char (g : TerminalGrid) (c : Char) (h : Inv g) :
    Inv (g.print_char c) := by
  obtain ⟨hx, hy⟩ := h
  have hcond : g.cursor_y < g.rows ∧ g.cursor_x < g.cols := ⟨hy, hx⟩
  unfold print_char
  simp only [if_pos hcond]
  split
  · exact inv_newline _ (by simpa using Nat.lt_of_le_of_lt (Nat.zero_le _) hx)
      (by simpa using hy)
  · exact ⟨by simp_all, by simpa using hy⟩

lemma inv_backspace (g : TerminalGrid) (h : Inv g) : Inv (g.backspace) := by
  obtain ⟨hx, hy⟩ := h
  unfold backspace
  split
  · exact ⟨by show g.cursor_x - 1 < g.cols; omega,
      by show g.cursor_y < g.rows; exact hy⟩
  · exact ⟨hx, hy⟩

lemma inv_clear_line (g : TerminalGrid) (n : Nat) (h : Inv g) :
    Inv (g.clear_line n) := by
  unfold clear_line
  split <;> exact ⟨by simpa using h.1, by simpa using h.2⟩

lemma inv_move_cursor (g : TerminalGrid) (x y : Nat)
    (hc : 0 < g.cols) (hr : 0 < g.rows) : Inv (g.move_cursor x y) := by
  constructor
  · rw [move_cursor_cursor_x, move_cursor_cols]; omega
  · rw [move_cursor_cursor_y, move_cursor_rows]; omega

lemma inv_move_cursor_relative (g : TerminalGrid) (dx dy : Int)
    (hc : 0 < g.cols) (hr : 0 < g.rows) : Inv (g.move_cursor_relative dx dy) := by
  unfold move_cursor_relative
  exact inv_move_cursor g _ _ hc hr

end TerminalGrid

open TerminalGrid in
/-- C1: every grid operation preserves the cursor-bounds invariant
`cursor_x < cols ∧ cursor_y < rows`; operations that would exceed the
bounds clamp or wrap first. -/
theorem C1_cursor_bounds (g : TerminalGrid) (c : Char) (x y n : Nat)
    (dx dy : Int) (h : TerminalGrid.Inv g) :
    TerminalGrid.Inv (g.print_char c) ∧ TerminalGrid.Inv (g.newline) ∧
    TerminalGrid.Inv (g.carriage_return) ∧ TerminalGrid.Inv (g.backspace) ∧
    TerminalGrid.Inv (g.clear_screen) ∧ TerminalGrid.Inv (g.clear_line n) ∧
    TerminalGrid.Inv (g.scroll_up) ∧ TerminalGrid.Inv (g.scroll_down) ∧
    TerminalGrid.Inv (g.move_cursor x y) ∧
    TerminalGrid.Inv (g.move_cursor_relative dx dy) := by
  obtain ⟨hx, hy⟩ := h
  have hc : 0 < g.cols := Nat.lt_of_le_of_lt (Nat.zero_le _) hx
  have hr : 0 < g.rows := Nat.lt_of_le_of_lt (Nat.zero_le _) hy
  exact ⟨inv_print_char g c ⟨hx, hy⟩, inv_newline g hc hy,
    ⟨by simpa using hc, by simpa using hy⟩, inv_backspace g ⟨hx, hy⟩,
    ⟨by simpa using hc, by simpa using hr⟩, inv_clear_line g n ⟨hx, hy⟩,
    ⟨by simpa using hx, by simpa using hy⟩,
    ⟨by simpa using hx, by simpa using hy⟩, inv_move_cursor g x y hc hr,
    inv_move_cursor_relative g dx dy hc hr⟩

/-- Witness for C1 at the default 80×24 grid. -/
theorem C1_cursor_bounds_witness :
    TerminalGrid.Inv (TerminalGrid.new 24 80) ∧
    TerminalGrid.Inv ((TerminalGrid.new 24 80).print_char 'a') :=
  ⟨⟨by decide, by decide⟩,
   (C1_cursor_bounds (TerminalGrid.new 24 80) 'a' 0 0 0 0 0
      ⟨by decide, by decide⟩).1⟩

/-! ## Lemmas about cell writes and well-formedness -/

lemma getD_set_self {α : Type} (l : List α) (i : Nat) (a d : α)
    (h : i < l.length) : (l.set i a).getD i d = a := by
  rw [List.getD_eq_getElem?_getD, List.getElem?_set_self h]
  rfl

namespace TerminalGrid

lemma getD_after_setCell (cells : List (List Char)) (y x : Nat) (c : Char)
    (hy : y < cells.length) (hx : x < (cells.getD y []).length) :
    ((setCell cells y x c).getD y []).getD x ' ' = c := by
  unfold setCell
  rw [getD_set_self _ _ _ _ hy, getD_set_self _ _ _ _ hx]

lemma length_setCell (cells : List (List Char)) (y x : Nat) (c : Char) :
    (setCell cells y x c).length = cells.length := by
  unfold setCell; exact List.length_set ..

lemma rowlen_setCell (cells : List (List Char)) (y x : Nat) (c : Char)
    (cols : Nat) (h : ∀ r ∈ cells, r.length = cols) (hy : y < cells.length) :
    ∀ r ∈ setCell cells y x c, r.length = cols := by
  intro r hr
  rcases List.mem_or_eq_of_mem_set hr with h1 | h1
  · exact h r h1
  · subst h1
    rw [List.length_set]
    rw [List.getD_eq_getElem _ _ hy]
    exact h _ (List.getElem_mem hy)

/-- `print_char` in the non-wrapping case. -/
lemma print_char_eq_nowrap (g : TerminalGrid) (c : Char)
    (hy : g.cursor_y < g.rows) (hx : g.cursor_x + 1 < g.cols) :
    g.print_char c =
      { g with cells := setCell g.cells g.cursor_y g.cursor_x c,
               cursor_x := g.cursor_x + 1, dirty := true } := by
  unfold print_char
  have hcond : g.cursor_y < g.rows ∧ g.cursor_x < g.cols := ⟨hy, by omega⟩
  rw [if_pos hcond]
  exact if_neg (by show ¬ g.cols ≤ g.cursor_x + 1; omega)

/-- `print_char` in the wrapping case (cursor reaches the column
boundary after the write). -/
lemma print_char_eq_wrap (g : TerminalGrid) (c : Char)
    (hy : g.cursor_y < g.rows) (hx : g.cursor_x + 1 = g.cols) :
    g.print_char c =
      newline (carriage_return
        { g with cells := setCell g.cells g.cursor_y g.cursor_x c,
                 cursor_x := g.cursor_x + 1, dirty := true }) := by
  unfold print_char
  have hcond : g.cursor_y < g.rows ∧ g.cursor_x < g.cols := ⟨hy, by omega⟩
  rw [if_pos hcond]
  exact if_pos (by show g.cols ≤ g.cursor_x + 1; omega)

/-- The cursor column stays strictly below `cols` across `print_char`. -/
lemma print_char_cursor_lt (g : TerminalGrid) (c : Char)
    (hx : g.cursor_x < g.cols) : (g.print_char c).cursor_x < g.cols := by
  unfold print_char
  by_cases hy : g.cursor_y < g.rows
  · have hcond : g.cursor_y < g.rows ∧ g.cursor_x < g.cols := ⟨hy, hx⟩
    rw [if_pos hcond]
    by_cases hw : g.cols ≤ g.cursor_x + 1
    · rw [if_pos (by show g.cols ≤ g.cursor_x + 1; exact hw)]
      rw [newline_cursor_x]; omega
    · rw [if_neg (by show ¬ g.cols ≤ g.cursor_x + 1; exact hw)]
      show g.cursor_x + 1 < g.cols; omega
  · have hcond2 : ¬ (g.cursor_y < g.rows ∧ g.cursor_x < g.cols) :=
      fun hand => hy hand.1
    rw [if_neg hcond2]
    rw [if_neg (by show ¬ g.cols ≤ g.cursor_x; omega)]
    exact hx

lemma newline_cells_bottom (g : TerminalGrid) (h : g.cursor_y = g.rows - 1) :
    (g.newline).cells = g.cells.drop 1 ++ [blankRow g.cols] := by
  simp [newline, h]

lemma newline_cells_mid (g : TerminalGrid) (h : ¬ g.cursor_y = g.rows - 1) :
    (g.newline).cells = g.cells := by
  simp [newline, h]

lemma newline_scrollback_bottom (g : TerminalGrid)
    (h : g.cursor_y = g.rows - 1) :
    (g.newline).scrollback = g.scrollback ++ [String.mk (g.cells.getD 0 [])] := by
  simp [newline, h]

lemma newline_scrollback_mid (g : TerminalGrid)
    (h : ¬ g.cursor_y = g.rows - 1) :
    (g.newline).scrollback = g.scrollback := by
  simp [newline, h]

lemma wf_newline (g : TerminalGrid) (hr : 0 < g.rows) (hwf : WF g) :
    WF (g.newline) := by
  by_cases h : g.cursor_y = g.rows - 1
  · constructor
    · rw [newline_cells_bottom g h, newline_rows]
      simp [hwf.1]; omega
    · rw [newline_cells_bottom g h, newline_cols]
      intro r hm
      rcases List.mem_append.1 hm with h1 | h1
      · exact hwf.2 r (List.mem_of_mem_drop h1)
      · rcases List.mem_singleton.1 h1 with rfl
        exact List.length_replicate ..
  · constructor
    · rw [newline_cells_mid g h, newline_rows]; exact hwf.1
    · rw [newline_cells_mid g h, newline_cols]; exact hwf.2

lemma wf_print_char (g : TerminalGrid) (c : Char) (hinv : Inv g)
    (hwf : WF g) : WF (g.print_char c) := by
  obtain ⟨hx, hy⟩ := hinv
  have hylen : g.cursor_y < g.cells.length := by rw [hwf.1]; exact hy
  have hW : WF { g with cells := setCell g.cells g.cursor_y g.cursor_x c,
                        cursor_x := g.cursor_x + 1, dirty := true } := by
    constructor
    · show (setCell g.cells g.cursor_y g.cursor_x c).length = g.rows
      rw [length_setCell]; exact hwf.1
    · show ∀ r ∈ setCell g.cells g.cursor_y g.cursor_x c, r.length = g.cols
      exact rowlen_setCell _ _ _ _ _ hwf.2 hylen
  by_cases hb : g.cursor_x + 1 = g.cols
  · rw [print_char_eq_wrap g c hy hb]
    have := wf_newline (carriage_return
      { g with cells := setCell g.cells g.cursor_y g.cursor_x c,
               cursor_x := g.cursor_x + 1, dirty := true })
      (by simpa using Nat.lt_of_le_of_lt (Nat.zero_le _) hy)
      ⟨by simpa using hW.1, by simpa using hW.2⟩
    exact this
  · rw [print_char_eq_nowrap g c hy (by omega)]
    exact hW

/-- Where `print_char` puts the character when no wrap follows. -/
lemma print_char_writes (g : TerminalGrid) (c : Char) (hwf : WF g)
    (hy : g.cursor_y < g.rows) (hnw : g.cursor_x + 1 < g.cols) :
    (g.print_char c).getCell g.cursor_y g.cursor_x = c := by
  rw [print_char_eq_nowrap g c hy hnw]
  unfold getCell
  exact getD_after_setCell g.cells g.cursor_y g.cursor_x c
    (by rw [hwf.1]; exact hy)
    (by rw [List.getD_eq_getElem _ _ (by rw [hwf.1]; exact hy)]
        rw [hwf.2 _ (List.getElem_mem (by rw [hwf.1]; exact hy))]
        omega)

end TerminalGrid

namespace TerminalGrid

@[simp] lemma print_char_cols (g : TerminalGrid) (c : Char) :
    (g.print_char c).cols = g.cols := by
  unfold print_char
  split <;> (dsimp only; split <;> simp)

@[simp] lemma print_char_rows (g : TerminalGrid) (c : Char) :
    (g.print_char c).rows = g.rows := by
  unfold print_char
  split <;> (dsimp only; split <;> simp)

end TerminalGrid

open TerminalGrid in
/-- C2: from a state one column before the boundary, printing a
character wraps the cursor to column 0 of the next row (promoting the
top row to scrollback when already on the bottom row), the next printed
character lands in cell `(0, new row)`, and the cursor — hence every
write position — always stays strictly below `cols`. -/
theorem C2_wrap_next_char (g : TerminalGrid) (c c2 : Char)
    (hwf : TerminalGrid.WF g) (hinv : TerminalGrid.Inv g)
    (hcols : 1 < g.cols) (hx : g.cursor_x = g.cols - 1) :
    (g.print_char c).cursor_x = 0 ∧
    (∀ (h : TerminalGrid) (d : Char), h.cursor_x < h.cols →
        (h.print_char d).cursor_x < h.cols) ∧
    (¬ g.cursor_y = g.rows - 1 →
        (g.print_char c).cursor_y = g.cursor_y + 1 ∧
        (g.print_char c).scrollback = g.scrollback) ∧
    (g.cursor_y = g.rows - 1 →
        (g.print_char c).cursor_y = g.rows - 1 ∧
        (g.print_char c).scrollback = g.scrollback ++
          [String.mk ((setCell g.cells g.cursor_y g.cursor_x c).getD 0 [])]) ∧
    ((g.print_char c).print_char c2).getCell (g.print_char c).cursor_y 0 = c2 := by
  obtain ⟨hxlt, hylt⟩ := hinv
  have hx1 : g.cursor_x + 1 = g.cols := by omega
  have hpc := print_char_eq_wrap g c hylt hx1
  have hg1x : (g.print_char c).cursor_x = 0 := by
    rw [hpc]; exact newline_cursor_x _
  have hg1y : (g.print_char c).cursor_y < (g.print_char c).rows := by
    rw [print_char_rows]
    by_cases hcase : g.cursor_y = g.rows - 1
    · rw [hpc, newline_cursor_y_bottom _ (by simpa using hcase)]
      simpa using hylt
    · rw [hpc, newline_cursor_y_mid _ (by simpa using hcase)]
      simp only [carriage_return_cursor_y]
      show g.cursor_y + 1 < g.rows
      omega
  have hfinal := print_char_writes (g.print_char c) c2
    (wf_print_char g c ⟨hxlt, hylt⟩ hwf) hg1y
    (by rw [hg1x, print_char_cols]; omega)
  rw [hg1x] at hfinal
  refine ⟨hg1x, fun h d hlt => print_char_cursor_lt h d hlt, ?_, ?_, hfinal⟩
  · intro hcase
    constructor
    · rw [hpc, newline_cursor_y_mid _ (by simpa using hcase)]
      simp
    · rw [hpc, newline_scrollback_mid _ (by simpa using hcase)]
      simp
  · intro hcase
    constructor
    · rw [hpc, newline_cursor_y_bottom _ (by simpa using hcase)]
      simpa using hcase
    · rw [hpc, newline_scrollback_bottom _ (by simpa using hcase)]
      simp

open TerminalGrid in
/-- Witness for C2 on a concrete 2×3 grid with the cursor on the last
column. -/
theorem C2_wrap_next_char_witness :
    (gLastCol.print_char 'X').cursor_x = 0 ∧
    ((gLastCol.print_char 'X').print_char 'Y').getCell
      (gLastCol.print_char 'X').cursor_y 0 = 'Y' := by
  have h := C2_wrap_next_char gLastCol 'X' 'Y' ⟨by decide, by decide⟩
    ⟨by decide, by decide⟩ (by decide) (by decide)
  exact ⟨h.1, h.2.2.2.2⟩

/-! ## C3: scroll round trip -/

/-- C3 counterexample: on a concrete grid with `scroll_offset = 0`,
`scroll_up` then `scroll_down` does not restore the pre-scroll top
line (the `scroll_down` is a no-op), and `scroll_up` leaves
`scroll_offset` unchanged rather than incrementing it. -/
theorem C3_roundtrip_cex :
    ((gPlain.scroll_up).scroll_down).cells.getD 0 [] ≠
      gPlain.cells.getD 0 [] ∧
    (gPlain.scroll_up).scroll_offset = gPlain.scroll_offset := by decide

namespace TerminalGrid

/-- `scroll_down` when the offset is positive and scrollback ends in
`line`. -/
lemma scroll_down_eq_pop (g : TerminalGrid) (hpos : 0 < g.scroll_offset)
    (line : String) (rest : List String)
    (hsb : g.scrollback = rest ++ [line]) :
    g.scroll_down =
      { g with scroll_offset := g.scroll_offset - 1,
               scrollback := rest,
               cells := overlayTop (g.cells.getD 0 []) line.data g.cols ::
                 g.cells.take (g.rows - 1),
               dirty := true } := by
  unfold scroll_down
  rw [if_pos hpos, hsb]
  simp only [List.getLast?_concat]
  rw [List.dropLast_concat]

/-- The row matrix after `scroll_up` then the popping `scroll_down` is
the original matrix. -/
lemma roundtrip_cells (g : TerminalGrid) (hwf : WF g) (hr : 0 < g.rows) :
    overlayTop ((g.cells.drop 1 ++ [blankRow g.cols]).getD 0 [])
        (String.mk (g.cells.getD 0 [])).data g.cols ::
      (g.cells.drop 1 ++ [blankRow g.cols]).take (g.rows - 1) = g.cells := by
  rcases hc : g.cells with _ | ⟨r0, rest⟩
  · exfalso
    have := hwf.1
    rw [hc] at this
    simp at this
    omega
  · have hwf1 := hwf.1
    have hwf2 := hwf.2
    rw [hc] at hwf1 hwf2
    have hr0 : r0.length = g.cols := hwf2 r0 (List.mem_cons_self ..)
    have hrest : rest.length = g.rows - 1 := by
      simp at hwf1; omega
    have hdrop : (r0 :: rest).drop 1 = rest := rfl
    rw [hdrop]
    have htail : (rest ++ [blankRow g.cols]).take (g.rows - 1) = rest := by
      rw [← hrest]; exact List.take_left rest _
    have hbaselen : ((rest ++ [blankRow g.cols]).getD 0 []).length = g.cols := by
      cases rest with
      | nil => simp [blankRow]
      | cons a t =>
          simp only [List.cons_append, List.getD_cons_zero]
          exact hwf2 a (by simp)
    have hget0 : (r0 :: rest).getD 0 [] = r0 := rfl
    rw [hget0, htail]
    have hhead : overlayTop ((rest ++ [blankRow g.cols]).getD 0 [])
        (String.mk r0).data g.cols = r0 := by
      show ((String.mk r0).data).take g.cols ++
        ((rest ++ [blankRow g.cols]).getD 0 []).drop
          (min (String.mk r0).data.length g.cols) = r0
      show r0.take g.cols ++
        ((rest ++ [blankRow g.cols]).getD 0 []).drop (min r0.length g.cols) = r0
      rw [show r0.take g.cols = r0 from by rw [← hr0]; exact List.take_length r0]
      rw [show min r0.length g.cols = g.cols from by rw [hr0, Nat.min_self]]
      rw [List.drop_eq_nil_of_le (le_of_eq hbaselen)]
      exact List.append_nil r0
    rw [hhead]

end TerminalGrid

open TerminalGrid in
/-- C3 amended: `scroll_up` leaves `scroll_offset` unchanged (it does
not increment it); when `scroll_offset = 0`, the following
`scroll_down` is a no-op; only when `scroll_offset > 0` does
`scroll_up` followed by `scroll_down` restore the rows and scrollback
exactly — and it then decrements `scroll_offset` by one, so the pair is
not symmetric in `scroll_offset`. -/
theorem C3_roundtrip_amended (g : TerminalGrid) (hwf : TerminalGrid.WF g)
    (hr : 0 < g.rows) :
    (g.scroll_up).scroll_offset = g.scroll_offset ∧
    (g.scroll_offset = 0 → (g.scroll_up).scroll_down = g.scroll_up) ∧
    (0 < g.scroll_offset →
        ((g.scroll_up).scroll_down).cells = g.cells ∧
        ((g.scroll_up).scroll_down).scrollback = g.scrollback ∧
        ((g.scroll_up).scroll_down).scroll_offset = g.scroll_offset - 1) := by
  refine ⟨rfl, ?_, ?_⟩
  · intro h0
    unfold scroll_down
    rw [if_neg (by simp [h0])]
  · intro hpos
    have h3 := scroll_down_eq_pop (g.scroll_up) (by simpa using hpos)
      (String.mk (g.cells.getD 0 [])) g.scrollback (scroll_up_scrollback g)
    rw [h3]
    refine ⟨?_, rfl, rfl⟩
    show overlayTop ((g.scroll_up).cells.getD 0 [])
        (String.mk (g.cells.getD 0 [])).data (g.scroll_up).cols ::
      (g.scroll_up).cells.take ((g.scroll_up).rows - 1) = g.cells
    rw [scroll_up_cells, scroll_up_cols, scroll_up_rows]
    exact roundtrip_cells g hwf hr

/-- Witness for the amended C3 on a concrete grid with
`scroll_offset = 1`. -/
theorem C3_roundtrip_amended_witness :
    ((gOffset.scroll_up).scroll_down).cells = gOffset.cells ∧
    ((gOffset.scroll_up).scroll_down).scroll_offset =
      gOffset.scroll_offset - 1 := by
  have h := C3_roundtrip_amended gOffset ⟨by decide, by decide⟩ (by decide)
  exact ⟨(h.2.2 (by decide)).1, (h.2.2 (by decide)).2.2⟩

/-! ## C4: newline frame conditions -/

/-- C4 counterexample: `newline()` does not leave `cursor_x` unchanged
— it resets it to 0. -/
theorem C4_newline_cex :
    (gMidLine.newline).cursor_x ≠ gMidLine.cursor_x := by decide

open TerminalGrid in
/-- C4 amended: `newline()` scrolls the grid up one line when the
cursor is on the bottom row and otherwise increments `cursor_y`; in
both cases it also resets `cursor_x` to 0 and sets `dirty`; nothing
else changes (in the non-scroll case the cells, scrollback and
`scroll_offset` are untouched). -/
theorem C4_newline_amended (g : TerminalGrid) :
    (g.newline).cursor_x = 0 ∧ (g.newline).dirty = true ∧
    (¬ g.cursor_y = g.rows - 1 →
        (g.newline).cursor_y = g.cursor_y + 1 ∧
        (g.newline).cells = g.cells ∧
        (g.newline).scrollback = g.scrollback ∧
        (g.newline).scroll_offset = g.scroll_offset ∧
        (g.newline).rows = g.rows ∧ (g.newline).cols = g.cols) ∧
    (g.cursor_y = g.rows - 1 →
        (g.newline).cursor_y = g.cursor_y ∧
        (g.newline).scrollback =
          g.scrollback ++ [String.mk (g.cells.getD 0 [])] ∧
        (g.newline).cells = g.cells.drop 1 ++ [blankRow g.cols] ∧
        (g.newline).scroll_offset = g.scroll_offset) := by
  refine ⟨newline_cursor_x g, rfl, ?_, ?_⟩
  · intro h
    exact ⟨newline_cursor_y_mid g h, newline_cells_mid g h,
      newline_scrollback_mid g h, by simp [newline, h],
      newline_rows g, newline_cols g⟩
  · intro h
    exact ⟨newline_cursor_y_bottom g h, newline_scrollback_bottom g h,
      newline_cells_bottom g h, by simp [newline, h]⟩

/-- Witness for the amended C4 on a concrete grid with the cursor in
the middle of a line. -/
theorem C4_newline_amended_witness :
    (gMidLine.newline).cursor_x = 0 ∧ (gMidLine.newline).cursor_y = 1 := by
  have h := C4_newline_amended gMidLine
  exact ⟨h.1, (h.2.2.1 (by decide)).1⟩

/-! ## C5: CSI P totality -/

/-- C5: the CSI `P` arm is not total.  With parameter 100 on the
default 80-column grid, the `usize` subtraction `cols - count` in the
Rust loop bounds underflows (a panic in debug builds; a wrapped bound
and out-of-bounds row index in release builds), modelled here as
`none`; the interpreter does not degrade this input to a no-op. -/
theorem C5_csiP_underflow :
    csiP (TerminalGrid.new 24 80) [[100]] = none := rfl

/-! ## C6: dirty flag on CSI-internal mutations -/

/-- C6: the mutations performed directly inside the CSI dispatcher do
not set `dirty`: on a clean grid, CSI `K` mode 2 (erase entire line)
and CSI `P` (delete character) change the cells yet leave
`dirty = false`. -/
theorem C6_dirty_not_set :
    (csiK gClean [[2]]).cells ≠ gClean.cells ∧
    (csiK gClean [[2]]).dirty = false ∧
    (csiP gClean [[1]]).map TerminalGrid.cells ≠ some gClean.cells ∧
    (csiP gClean [[1]]).map TerminalGrid.dirty = some false := by decide

/-! ## C10: clear_screen preserves scrollback -/

namespace TerminalGrid

lemma length_le_foldl_append (l : List String) :
    ∀ acc : String,
      acc.length ≤ (l.foldl (fun a s => a ++ s ++ "\n") acc).length := by
  induction l with
  | nil => intro acc; exact le_refl _
  | cons s t ih =>
      intro acc
      calc acc.length ≤ (acc ++ s ++ "\n").length := by
            rw [String.length_append, String.length_append]; omega
        _ ≤ _ := ih (acc ++ s ++ "\n")

lemma scrollbackText_ne_empty (g : TerminalGrid)
    (h : g.scroll_offset < g.scrollback.length) : scrollbackText g ≠ "" := by
  have hlen : 1 ≤ (scrollbackText g).length := by
    unfold scrollbackText
    cases hd : g.scrollback.drop g.scroll_offset with
    | nil =>
        exfalso
        have := congrArg List.length hd
        simp at this
        omega
    | cons s t =>
        rw [List.foldl_cons]
        have hstep := length_le_foldl_append t ("" ++ s ++ "\n")
        have : 1 ≤ ("" ++ s ++ "\n").length := by
          rw [String.length_append, String.length_append]
          have : ("\n" : String).length = 1 := by decide
          omega
        omega
  intro hempty
  rw [hempty] at hlen
  exact absurd hlen (by decide)

end TerminalGrid

open TerminalGrid in
/-- C10: `clear_screen` blanks every cell and resets the cursor to the
origin but leaves scrollback and `scroll_offset` untouched, so when
scrollback is visible the snapshot string still begins with the
retained scrollback text. -/
theorem C10_clear_screen_scrollback (g : TerminalGrid)
    (h : g.scroll_offset < g.scrollback.length) :
    (g.clear_screen).scrollback = g.scrollback ∧
    (g.clear_screen).scroll_offset = g.scroll_offset ∧
    (g.clear_screen).cursor_x = 0 ∧ (g.clear_screen).cursor_y = 0 ∧
    (∀ row ∈ (g.clear_screen).cells, ∀ ch ∈ row, ch = ' ') ∧
    scrollbackText g ≠ "" ∧
    (g.clear_screen).to_string =
      scrollbackText g ++
        String.intercalate "\n" ((g.clear_screen).cells.map String.mk) := by
  refine ⟨rfl, rfl, rfl, rfl, ?_, scrollbackText_ne_empty g h, rfl⟩
  intro row hrow ch hch
  rw [clear_screen_cells] at hrow
  have hr := List.eq_of_mem_replicate hrow
  subst hr
  exact List.eq_of_mem_replicate hch

/-- Witness for C10 on a concrete grid with one visible scrollback
line. -/
theorem C10_clear_screen_scrollback_witness :
    (gScrollback.clear_screen).scrollback = ["hi"] ∧
    TerminalGrid.scrollbackText gScrollback ≠ "" := by
  have h := C10_clear_screen_scrollback gScrollback (by decide)
  exact ⟨h.1, h.2.2.2.2.2.1⟩

/-! ## C9: state published after an EOF respawn -/

set_option maxRecDepth 100000 in
/-- C9 counterexample: the cursor pixel position published after a
respawn is not `(0, LINE_HEIGHT)` — `print_str` writes the banner's
`'\n'` into a cell instead of performing a newline, so the cursor stays
on row 0 at column 18. -/
theorem C9_respawn_cursor_cex :
    published_cursor gRespawn ≠ (0, LINE_HEIGHT) := by decide

set_option maxRecDepth 100000 in
/-- C9 amended: after an EOF-triggered respawn the published snapshot
does contain the banner text and the scrollback is empty, but the
published cursor pixel position is `(18 * FONT_SIZE, 0)` (column 18 of
row 0), because the banner's `'\n'` is written literally into a cell. -/
theorem C9_respawn_amended :
    gRespawn.scrollback = [] ∧
    published_cursor gRespawn = (18 * FONT_SIZE, 0) ∧
    gRespawn.to_string.data.take 15 = "Nebula Terminal".data := by decide

/-! ## C7 and C8: glyph atlas packing -/

namespace GlyphAtlas

@[simp] lemma sumW_nil : sumW [] = 0 := rfl
@[simp] lemma sumW_cons (p : GlyphKey × Nat × Nat)
    (t : List (GlyphKey × Nat × Nat)) : sumW (p :: t) = p.2.1 + sumW t := by
  simp [sumW]
@[simp] lemma maxH_nil : maxH [] = 0 := rfl
@[simp] lemma maxH_cons (p : GlyphKey × Nat × Nat)
    (t : List (GlyphKey × Nat × Nat)) : maxH (p :: t) = max p.2.2 (maxH t) := rfl
@[simp] lemma addAll_nil (a : GlyphAtlas) : addAll a [] = a := rfl
lemma addAll_cons (a : GlyphAtlas) (p : GlyphKey × Nat × Nat)
    (t : List (GlyphKey × Nat × Nat)) :
    addAll a (p :: t) = addAll (add_glyph a p.1 p.2.1 p.2.2).2 t := rfl

lemma findRect_cons (k : GlyphKey) (r : Nat × Nat × Nat × Nat)
    (rest : List (GlyphKey × (Nat × Nat × Nat × Nat))) (q : GlyphKey) :
    findRect ((k, r) :: rest) q = if k = q then some r else findRect rest q :=
  rfl

/-- A fresh, non-empty glyph that fits in the current row is packed at
`(current_x, current_y)` with no wrap. -/
lemma add_glyph_nowrap (a : GlyphAtlas) (k : GlyphKey) (w h : Nat)
    (hfresh : findRect a.cache k = none) (hw : 0 < w) (hh : 0 < h)
    (hfit : a.current_x + w ≤ a.atlas_size)
    (hhfit : a.current_y + h ≤ a.atlas_size) :
    add_glyph a k w h =
      (Except.ok (a.current_x, a.current_y, w, h),
       { a with cache := (k, (a.current_x, a.current_y, w, h)) :: a.cache,
                row_height := max a.row_height h,
                current_x := a.current_x + w,
                writes := a.writes ++ [(a.current_x, a.current_y, w, h)] }) := by
  unfold add_glyph
  simp only [hfresh]
  rw [if_neg (show ¬ (w = 0 ∨ h = 0) by omega)]
  rw [if_neg (show ¬ a.atlas_size < a.current_x + w by omega)]
  rw [if_neg (show ¬ a.atlas_size < a.current_y + h by omega)]

/-- A fresh glyph that overflows the row width wraps to
`(0, current_y + row_height)` when the new row still fits. -/
lemma add_glyph_wrap_ok (a : GlyphAtlas) (k : GlyphKey) (w h : Nat)
    (hfresh : findRect a.cache k = none) (hw : 0 < w) (hh : 0 < h)
    (hwrap : a.atlas_size < a.current_x + w)
    (hfit : a.current_y + a.row_height + h ≤ a.atlas_size) :
    add_glyph a k w h =
      (Except.ok (0, a.current_y + a.row_height, w, h),
       { a with cache := (k, (0, a.current_y + a.row_height, w, h)) :: a.cache,
                current_x := w,
                current_y := a.current_y + a.row_height,
                row_height := h,
                writes := a.writes ++
                  [(0, a.current_y + a.row_height, w, h)] }) := by
  unfold add_glyph
  simp only [hfresh]
  rw [if_neg (show ¬ (w = 0 ∨ h = 0) by omega)]
  rw [if_pos hwrap]
  dsimp only
  rw [if_neg (show ¬ a.atlas_size < a.current_y + a.row_height + h by omega)]
  simp

/-- A fresh glyph that overflows the row width and whose new row would
overflow the atlas height fails with `atlasFull` (the wrap mutation of
the cursor persists; nothing is cached or uploaded). -/
lemma add_glyph_wrap_full (a : GlyphAtlas) (k : GlyphKey) (w h : Nat)
    (hfresh : findRect a.cache k = none) (hw : 0 < w) (hh : 0 < h)
    (hwrap : a.atlas_size < a.current_x + w)
    (hfull : a.atlas_size < a.current_y + a.row_height + h) :
    add_glyph a k w h =
      (Except.error GlyphError.atlasFull,
       { a with current_x := 0,
                current_y := a.current_y + a.row_height,
                row_height := 0 }) := by
  unfold add_glyph
  simp only [hfresh]
  rw [if_neg (show ¬ (w = 0 ∨ h = 0) by omega)]
  rw [if_pos hwrap]
  dsimp only
  rw [if_pos (show a.atlas_size < a.current_y + a.row_height + h from hfull)]

/-- Folding a row of fresh, pairwise-distinct, fitting glyphs keeps the
packer in the same row: `current_x` advances by the total width,
`current_y` is unchanged, and `row_height` becomes the running maximum
of the heights.  Keys outside the list stay unresolved. -/
lemma addAll_row (gs : List (GlyphKey × Nat × Nat)) :
    ∀ a : GlyphAtlas,
      (∀ p ∈ gs, 0 < p.2.1 ∧ 0 < p.2.2 ∧ a.current_y + p.2.2 ≤ a.atlas_size ∧
        findRect a.cache p.1 = none) →
      (gs.map Prod.fst).Nodup →
      a.current_x + sumW gs ≤ a.atlas_size →
      (addAll a gs).current_x = a.current_x + sumW gs ∧
      (addAll a gs).current_y = a.current_y ∧
      (addAll a gs).row_height = max a.row_height (maxH gs) ∧
      (addAll a gs).atlas_size = a.atlas_size ∧
      (∀ k, k ∉ gs.map Prod.fst →
        findRect (addAll a gs).cache k = findRect a.cache k) := by
  induction gs with
  | nil =>
      intro a _ _ _
      exact ⟨by simp, by simp, by simp, by simp, fun k _ => by simp⟩
  | cons p t ih =>
      obtain ⟨k, w, h⟩ := p
      intro a hall hnodup hfit
      have hp := hall (k, w, h) (List.mem_cons_self ..)
      have hsum : a.current_x + (w + sumW t) ≤ a.atlas_size := by
        simpa using hfit
      have hstep := add_glyph_nowrap a k w h hp.2.2.2 hp.1 hp.2.1
        (by omega) hp.2.2.1
      have hsnd : (add_glyph a k w h).2 =
          { a with cache := (k, (a.current_x, a.current_y, w, h)) :: a.cache,
                   row_height := max a.row_height h,
                   current_x := a.current_x + w,
                   writes := a.writes ++ [(a.current_x, a.current_y, w, h)] } :=
        congrArg Prod.snd hstep
      have hknott : k ∉ t.map Prod.fst := (List.nodup_cons.1 hnodup).1
      have hih := ih (add_glyph a k w h).2
        (by
          intro q hq
          have hq' := hall q (List.mem_cons_of_mem _ hq)
          refine ⟨hq'.1, hq'.2.1, ?_, ?_⟩
          · rw [hsnd]; exact hq'.2.2.1
          · rw [hsnd]
            show findRect ((k, (a.current_x, a.current_y, w, h)) :: a.cache) q.1 = none
            rw [findRect_cons, if_neg (show ¬ k = q.1 from fun he =>
              hknott (he ▸ List.mem_map_of_mem Prod.fst hq))]
            exact hq'.2.2.2)
        (List.nodup_cons.1 hnodup).2
        (by rw [hsnd]; show a.current_x + w + sumW t ≤ a.atlas_size; omega)
      obtain ⟨ihx, ihy, ihrh, ihN, ihfr⟩ := hih
      rw [addAll_cons]
      refine ⟨?_, ?_, ?_, ?_, ?_⟩
      · rw [ihx, hsnd]; show a.current_x + w + sumW t = a.current_x + sumW ((k, w, h) :: t)
        simp; omega
      · rw [ihy, hsnd]
      · rw [ihrh, hsnd]
        show max (max a.row_height h) (maxH t) = max a.row_height (maxH ((k, w, h) :: t))
        rw [maxH_cons]
        exact Nat.max_assoc ..
      · rw [ihN, hsnd]
      · intro q hq
        have hqk : ¬ k = q := by
          intro he; exact hq (he ▸ List.mem_cons_self ..)
        have hqt : q ∉ t.map Prod.fst := fun hin =>
          hq (List.mem_cons_of_mem _ hin)
        rw [ihfr q hqt, hsnd]
        show findRect ((k, (a.current_x, a.current_y, w, h)) :: a.cache) q =
          findRect a.cache q
        rw [findRect_cons, if_neg hqk]

end GlyphAtlas

open GlyphAtlas in
/-- C7: packing a row of fresh non-empty glyphs from a fresh atlas
advances `current_x` by the total width while `row_height` tracks the
maximum height seen in the row; a further glyph whose width would
overflow the atlas width starts a new row at `y = maxH` (the maximum
height of the previous row) with `x` reset to 0 — and when that new row
would overflow the atlas height, `add_glyph` fails with `atlasFull`
instead of packing. -/
theorem C7_shelf_packing (N : Nat) (gs : List (GlyphKey × Nat × Nat))
    (key : GlyphKey) (w h : Nat)
    (hall : ∀ p ∈ gs, 0 < p.2.1 ∧ 0 < p.2.2 ∧ p.2.2 ≤ N)
    (hnodup : (gs.map Prod.fst).Nodup)
    (hrow : sumW gs ≤ N)
    (hkey : key ∉ gs.map Prod.fst)
    (hw : 0 < w) (hh : 0 < h)
    (hoverflow : N < sumW gs + w) :
    (addAll (GlyphAtlas.new N) gs).current_x = sumW gs ∧
    (addAll (GlyphAtlas.new N) gs).current_y = 0 ∧
    (addAll (GlyphAtlas.new N) gs).row_height = maxH gs ∧
    (maxH gs + h ≤ N →
        (add_glyph (addAll (GlyphAtlas.new N) gs) key w h).1 =
          Except.ok (0, maxH gs, w, h) ∧
        (add_glyph (addAll (GlyphAtlas.new N) gs) key w h).2.current_x = w ∧
        (add_glyph (addAll (GlyphAtlas.new N) gs) key w h).2.current_y =
          maxH gs ∧
        (add_glyph (addAll (GlyphAtlas.new N) gs) key w h).2.writes =
          (addAll (GlyphAtlas.new N) gs).writes ++ [(0, maxH gs, w, h)]) ∧
    (N < maxH gs + h →
        (add_glyph (addAll (GlyphAtlas.new N) gs) key w h).1 =
          Except.error GlyphError.atlasFull ∧
        (add_glyph (addAll (GlyphAtlas.new N) gs) key w h).2.cache =
          (addAll (GlyphAtlas.new N) gs).cache ∧
        (add_glyph (addAll (GlyphAtlas.new N) gs) key w h).2.writes =
          (addAll (GlyphAtlas.new N) gs).writes) := by
  have hA := addAll_row gs (GlyphAtlas.new N)
    (fun p hp => ⟨(hall p hp).1, (hall p hp).2.1,
      by show 0 + p.2.2 ≤ N; have := (hall p hp).2.2; omega, rfl⟩)
    hnodup (by show 0 + sumW gs ≤ N; omega)
  obtain ⟨hx0, hy0, hrh0, hN0, hframe⟩ := hA
  have hnewx : (GlyphAtlas.new N).current_x = 0 := rfl
  have hnewy : (GlyphAtlas.new N).current_y = 0 := rfl
  have hnewrh : (GlyphAtlas.new N).row_height = 0 := rfl
  have hnewN : (GlyphAtlas.new N).atlas_size = N := rfl
  have hx : (addAll (GlyphAtlas.new N) gs).current_x = sumW gs := by
    rw [hx0, hnewx, Nat.zero_add]
  have hy : (addAll (GlyphAtlas.new N) gs).current_y = 0 := by
    rw [hy0, hnewy]
  have hrh : (addAll (GlyphAtlas.new N) gs).row_height = maxH gs := by
    rw [hrh0, hnewrh, Nat.zero_max]
  have hNA : (addAll (GlyphAtlas.new N) gs).atlas_size = N := by
    rw [hN0, hnewN]
  have hfresh : findRect (addAll (GlyphAtlas.new N) gs).cache key = none := by
    rw [hframe key hkey]; rfl
  refine ⟨hx, hy, hrh, ?_, ?_⟩
  · intro hfit
    have hstep := add_glyph_wrap_ok (addAll (GlyphAtlas.new N) gs) key w h
      hfresh hw hh (by rw [hNA, hx]; omega) (by rw [hNA, hy, hrh]; omega)
    rw [hstep]
    refine ⟨?_, rfl, ?_, ?_⟩
    · show Except.ok (0, (addAll (GlyphAtlas.new N) gs).current_y +
        (addAll (GlyphAtlas.new N) gs).row_height, w, h) =
        Except.ok (0, maxH gs, w, h)
      rw [hy, hrh, Nat.zero_add]
    · show (addAll (GlyphAtlas.new N) gs).current_y +
        (addAll (GlyphAtlas.new N) gs).row_height = maxH gs
      rw [hy, hrh, Nat.zero_add]
    · show (addAll (GlyphAtlas.new N) gs).writes ++
        [(0, (addAll (GlyphAtlas.new N) gs).current_y +
          (addAll (GlyphAtlas.new N) gs).row_height, w, h)] =
        (addAll (GlyphAtlas.new N) gs).writes ++ [(0, maxH gs, w, h)]
      rw [hy, hrh, Nat.zero_add]
  · intro hfull
    have hstep := add_glyph_wrap_full (addAll (GlyphAtlas.new N) gs) key w h
      hfresh hw hh (by rw [hNA, hx]; omega) (by rw [hNA, hy, hrh]; omega)
    rw [hstep]
    exact ⟨rfl, rfl, rfl⟩

open GlyphAtlas in
/-- Witness for C7: atlas of size 10, first row `[6×3, 3×5]`
(total width 9, max height 5), then a 4×4 glyph wraps to `(0, 5)`. -/
theorem C7_shelf_packing_witness :
    (add_glyph (addAll (GlyphAtlas.new 10) [(kA, 6, 3), (kB, 3, 5)])
        kC 4 4).1 = Except.ok (0, 5, 4, 4) := by
  have hthm := C7_shelf_packing 10 [(kA, 6, 3), (kB, 3, 5)] kC 4 4
    (by decide) (by decide) (by decide) (by decide) (by decide) (by decide)
    (by decide)
  have heq := (hthm.2.2.2.1 (by decide)).1
  rw [heq]
  rfl

open GlyphAtlas in
/-- C8: once `add_glyph` has returned a rectangle for a key, calling it
again with the same key — with any image dimensions, since the key
carries no sub-pixel component — returns the identical rectangle and
leaves the atlas state (including the record of texture writes)
completely unchanged. -/
theorem C8_cache_hit (a : GlyphAtlas) (key : GlyphKey) (w h w2 h2 : Nat)
    (r : Nat × Nat × Nat × Nat) (a1 : GlyphAtlas)
    (hfirst : add_glyph a key w h = (Except.ok r, a1)) :
    add_glyph a1 key w2 h2 = (Except.ok r, a1) := by
  have hf : findRect a1.cache key = some r := by
    unfold add_glyph at hfirst
    cases hc : findRect a.cache key with
    | some r0 =>
        simp only [hc] at hfirst
        injection hfirst with h1 h2
        injection h1 with h3
        rw [← h2, hc, h3]
    | none =>
        simp only [hc] at hfirst
        by_cases hz : w = 0 ∨ h = 0
        · rw [if_pos hz] at hfirst
          injection hfirst with h1 h2
          injection h1
        · rw [if_neg hz] at hfirst
          split at hfirst <;> split at hfirst <;>
            injection hfirst with h1 h2 <;>
            first
              | (injection h1 with h3
                 subst h2
                 simp [findRect_cons, ← h3])
              | injection h1
  unfold add_glyph
  simp only [hf]

open GlyphAtlas in
/-- Witness for C8: inserting a 3×3 glyph under `kA` into a fresh
atlas, then requesting `kA` again with different dimensions, returns
the same `(0, 0, 3, 3)` rectangle and the same state. -/
theorem C8_cache_hit_witness :
    add_glyph (add_glyph (GlyphAtlas.new 10) kA 3 3).2 kA 5 5 =
      (Except.ok (0, 0, 3, 3), (add_glyph (GlyphAtlas.new 10) kA 3 3).2) := by
  have h : add_glyph (GlyphAtlas.new 10) kA 3 3 =
      (Except.ok (0, 0, 3, 3), (add_glyph (GlyphAtlas.new 10) kA 3 3).2) := rfl
  exact C8_cache_hit (GlyphAtlas.new 10) kA 3 3 5 5 (0, 0, 3, 3)
    (add_glyph (GlyphAtlas.new 10) kA 3 3).2 h
